import Mathlib

set_option autoImplicit false

/-!
Shallow embedding of the simplay daemon's playback-state machine
(src/daemon.rs) and the fuzzy name matcher (src/subsonic.rs).

Conventions of the embedding:
* Rust `String` is Lean `String`; `Option<T>` is `Option T`; `u32`/`usize`
  are `Nat` (all uses are small and non-wrapping: the only arithmetic is
  `index + 1`, `index - 1` guarded by `index != 0`, and comparisons).
* The shared `Mutex<State>` is modelled by explicit state passing: each
  lock-section of a daemon function becomes a pure function
  `State -> State × result`.  An early `return Err(..)` in the Rust code
  happens before any field of the state has been assigned, so it is
  modelled as returning the input state unchanged beside the error.
* `f64` play positions and durations in the fallback tracker are modelled
  as exact rationals `ℚ`; the comparisons in the source (`pos + 0.25 <
  duration`) involve no rounding subtleties relevant to the claims.
* `rand::seq::SliceRandom::shuffle` (an in-place permutation from an
  unseeded RNG) is modelled by an explicit parameter
  `rng : List Song → List Song`; theorems that depend on its in-place /
  permutation character take that as a hypothesis.
* Rust `Vec` indexing `st.queue[st.index]` (which panics out of bounds,
  a situation unreachable from the daemon's state invariant) is modelled
  with `List.getD` and a default element.
-/

/-- `Song` from src/subsonic.rs: id, title, artist, album, optional
duration in whole seconds, optional track/disc ordering numbers. -/
structure Song where
  id : String
  title : String
  artist : String
  album : String
  duration : Option Nat
  track : Option Nat
  disc : Option Nat
deriving Repr, DecidableEq

/-- Default element used for the (unreachable) out-of-bounds case of
queue indexing. -/
def default_song : Song :=
  { id := "", title := "", artist := "", album := ""
    duration := none, track := none, disc := none }

/-- `Item` from src/subsonic.rs: a named library entity (artist, album
or playlist). -/
structure Item where
  id : String
  name : String
deriving Repr, DecidableEq

/-- `State` from src/daemon.rs: the single shared playback state.  The
Rust field `repeat` is rendered `repeat_flag` (`repeat` is reserved in
Lean); all other names match the source. -/
structure State where
  queue : List Song
  index : Nat
  current : Option Song
  paused : Bool
  repeat_flag : Bool
  shuffle : Bool
  suppress_next_end : Bool
  end_grace_ms : Nat
deriving Repr, DecidableEq

/-- `State::new` from src/daemon.rs. -/
def State.new (end_grace_ms : Nat) : State :=
  { queue := [], index := 0, current := none, paused := false
    repeat_flag := false, shuffle := false, suppress_next_end := false
    end_grace_ms := end_grace_ms }

/-- Error values produced by the state-mutating daemon functions; the
source uses `anyhow!` with the quoted messages. -/
inductive DaemonErr where
  /-- "Queue is empty" -/
  | queueEmpty
  /-- "End of queue" -/
  | endOfQueue
  /-- "At start of queue" -/
  | atStart
  /-- "No songs to play" -/
  | noSongs
deriving Repr, DecidableEq

/-- Decidable equality of `Except` results, used to evaluate the
operations on concrete inputs. -/
instance {ε α : Type} [DecidableEq ε] [DecidableEq α] : DecidableEq (Except ε α)
  | Except.ok a, Except.ok b =>
      if h : a = b then Decidable.isTrue (by rw [h])
      else Decidable.isFalse (fun hh => h (Except.ok.inj hh))
  | Except.error a, Except.error b =>
      if h : a = b then Decidable.isTrue (by rw [h])
      else Decidable.isFalse (fun hh => h (Except.error.inj hh))
  | Except.ok _, Except.error _ => Decidable.isFalse (fun hh => Except.noConfusion hh)
  | Except.error _, Except.ok _ => Decidable.isFalse (fun hh => Except.noConfusion hh)

/-- The stale-trigger test at the top of `play_next` (src/daemon.rs
lines 477-486): with an `expected_id` given, the advance is stale unless
the current song exists and its id equals the expected id; literally
`st.current.as_ref().map(|song| song.id.as_str() == expected) != Some(true)`. -/
def stale_trigger (st : State) (expected_id : Option String) : Bool :=
  match expected_id with
  | none => false
  | some expected => st.current.map (fun song => song.id == expected) != some true

/-- The tail of `play_next`'s lock section (src/daemon.rs lines 499-505):
read the song at the (already updated) index, cache it as `current`,
clear `paused`, and set the suppression flag when the advance is manual. -/
def finish_advance (st : State) (manual : Bool) : State × Except DaemonErr (Option Song) :=
  let song := st.queue.getD st.index default_song
  ({ st with current := some song
             paused := false
             suppress_next_end := if manual then true else st.suppress_next_end },
   Except.ok (some song))

/-- `play_next` from src/daemon.rs (lines 465-509), lock section only
(the subsequent `play_song` call performs no state mutation).  Returns
the state beside the result; `Except.ok none` is the silent stale no-op,
`Except.ok (some song)` an actual advance to `song`.  `rng` models the
unseeded in-place `queue.shuffle(&mut rand::thread_rng())` used on
repeat-with-shuffle wrap-around. -/
def play_next (rng : List Song → List Song) (st : State) (manual : Bool)
    (expected_id : Option String) : State × Except DaemonErr (Option Song) :=
  if st.queue = [] then
    (st, Except.error DaemonErr.queueEmpty)
  else if stale_trigger st expected_id then
    (st, Except.ok none)
  else if st.index + 1 ≥ st.queue.length then
    if st.repeat_flag then
      finish_advance
        { st with queue := if st.shuffle then rng st.queue else st.queue, index := 0 }
        manual
    else
      (st, Except.error DaemonErr.endOfQueue)
  else
    finish_advance { st with index := st.index + 1 } manual

/-- `play_previous` from src/daemon.rs (lines 511-536), lock section
only. -/
def play_previous (st : State) (manual : Bool) : State × Except DaemonErr Song :=
  if st.queue = [] then
    (st, Except.error DaemonErr.queueEmpty)
  else if st.index = 0 then
    (st, Except.error DaemonErr.atStart)
  else
    ({ st with index := st.index - 1
               current := some (st.queue.getD (st.index - 1) default_song)
               paused := false
               suppress_next_end := if manual then true else st.suppress_next_end },
     Except.ok (st.queue.getD (st.index - 1) default_song))

/-- `set_queue_and_play` from src/daemon.rs (lines 439-463), lock
section only (the `play_song` call after the lock performs no state
mutation). -/
def set_queue_and_play (st : State) (songs : List Song) (rep : Bool) (shuf : Bool) :
    State × Except DaemonErr Unit :=
  if songs = [] then
    (st, Except.error DaemonErr.noSongs)
  else
    let first := songs.getD 0 default_song
    ({ st with queue := songs, index := 0, current := some first, paused := false
               repeat_flag := rep, shuffle := shuf, suppress_next_end := false },
     Except.ok ())

/-- The `paused` updates done by the `pause` / `play` command handlers
(src/daemon.rs lines 295-312) after the mpv call succeeds. -/
def set_paused (st : State) (b : Bool) : State :=
  { st with paused := b }

/-- One iteration of the event-consumer loop of `start_event_handler`
(src/daemon.rs lines 108-150) on an `EndFile` notification carrying
`reason`.  The fire-and-forget scrobble thread touches no state and is
omitted.  Returns the state after the iteration beside a flag recording
whether a non-manual `play_next` call was made. -/
def handle_end_file (rng : List Song → List Song) (st : State) (reason : Option String) :
    State × Bool :=
  let r := reason.getD ""
  if st.suppress_next_end then
    ({ st with suppress_next_end := false }, false)
  else if r = "" ∨ r = "eof" ∨ r = "stop" ∨ r = "error" then
    ((play_next rng st false none).1, true)
  else
    (st, false)

/-- The three-way decision the fallback end-tracker takes on waking
(`schedule_end_fallback`, src/daemon.rs lines 580-601): exit when the
current track no longer matches the tracked id or playback is paused;
with a reported player position more than 0.25 s before the nominal end,
recompute the remaining time and loop; otherwise force the advance.
`pos = none` models both a failed property read and a `None` position. -/
inductive FallbackStep where
  | exit
  | retry (remaining : ℚ)
  | advance
deriving Repr, DecidableEq

/-- The wake-time checks of `schedule_end_fallback` (src/daemon.rs lines
580-596). -/
def fallback_wake_check (st : State) (song_id : String) (duration_secs : Nat)
    (pos : Option ℚ) : FallbackStep :=
  let current_matches := (st.current.map (fun song => song.id == song_id)).getD false
  if ¬current_matches ∨ st.paused then
    FallbackStep.exit
  else
    match pos with
    | some p =>
        if p + 1/4 < (duration_secs : ℚ) then
          FallbackStep.retry (max ((duration_secs : ℚ) - p) (1/10))
        else
          FallbackStep.advance
    | none => FallbackStep.advance

/-- The forced advance issued by the fallback end-tracker
(src/daemon.rs line 598): `play_next(&state, &client, &mpv, true,
Some(song_id.as_str()))` — note the literal `true` for `manual`. -/
def fallback_advance (rng : List Song → List Song) (st : State) (song_id : String) :
    State × Except DaemonErr (Option Song) :=
  play_next rng st true (some song_id)

/-- `normalize_name` from src/subsonic.rs (lines 400-406): drop
whitespace, lowercase the rest. -/
def normalize_name (input : String) : String :=
  String.mk ((input.data.filter (fun c => ¬c.isWhitespace)).map Char.toLower)

/-- `match_score` from src/subsonic.rs (lines 408-418).  `candidate.contains
(query)` is "query occurs as a substring of candidate", i.e. list-infix on
the characters; `starts_with` is list-prefix. -/
def match_score (query : String) (candidate : String) : Nat :=
  if candidate = query then 3
  else if query.data <:+: candidate.data ∨ candidate.data <:+: query.data then 2
  else if query.data <+: candidate.data then 1
  else 0

/-- The scan loop of `best_match` (src/subsonic.rs lines 425-434): keep
the first candidate whose score strictly exceeds the best so far. -/
def best_match_loop (nq : String) (items : List Item) (best : Option Item)
    (best_score : Nat) : Option Item × Nat :=
  match items with
  | [] => (best, best_score)
  | item :: rest =>
      let score := match_score nq (normalize_name item.name)
      if score > best_score then best_match_loop nq rest (some item) score
      else best_match_loop nq rest best best_score

/-- `best_match` from src/subsonic.rs (lines 420-436). -/
def best_match (query : String) (items : List Item) : Option Item :=
  let normalized_query := normalize_name query
  if normalized_query = "" then none
  else (best_match_loop normalized_query items none 0).1

/-- The state invariant of claim C5: a valid position into a non-empty
queue with the cached `current` equal to `queue[position]`, and no
current track when the queue is empty. -/
def StateInv (st : State) : Prop :=
  (st.queue = [] → st.current = none) ∧
  (st.queue ≠ [] →
    st.index < st.queue.length ∧ st.current = some (st.queue.getD st.index default_song))

/-- Concrete two-song state used by witnesses and counterexamples. -/
def songA : Song :=
  { id := "a", title := "Alpha", artist := "Art", album := "Al"
    duration := some 100, track := some 1, disc := some 1 }

/-- Second concrete song. -/
def songB : Song :=
  { id := "b", title := "Beta", artist := "Art", album := "Al"
    duration := some 90, track := some 2, disc := some 1 }

/-- A reachable state: queue `[songA, songB]`, playing `songA`. -/
def stAB : State :=
  { queue := [songA, songB], index := 0, current := some songA, paused := false
    repeat_flag := false, shuffle := false, suppress_next_end := false
    end_grace_ms := 500 }

/-- `stAB` advanced to its second (last) track. -/
def stAB1 : State :=
  { stAB with index := 1, current := some songB }

/-- `stAB` with playback paused. -/
def stABp : State :=
  { stAB with paused := true }

/-- `stAB1` with playback paused. -/
def stAB1p : State :=
  { stAB1 with paused := true }

/-- The state produced by a manual advance from `stAB`: second track
current, suppression flag set. -/
def stAB_adv : State :=
  { queue := [songA, songB], index := 1, current := some songB, paused := false
    repeat_flag := false, shuffle := false, suppress_next_end := true
    end_grace_ms := 500 }

/-- `stAB1` with `repeat` on (wrap-around witness state). -/
def stAB1r : State :=
  { stAB1 with repeat_flag := true }

example : (play_next (fun q => q) stAB true none).1.index = 1 := by decide
example : (play_next (fun q => q) stAB true none).1.suppress_next_end = true := by decide
example : fallback_wake_check stAB "a" 100 (some 100) = FallbackStep.advance := by
  simp [fallback_wake_check, stAB, songA]
example : fallback_wake_check stAB "a" 100 (some 50) = FallbackStep.retry 50 := by
  simp [fallback_wake_check, stAB, songA]
  norm_num
example : fallback_wake_check stAB "b" 100 (some 100) = FallbackStep.exit := by
  simp [fallback_wake_check, stAB, songA]
example :
    best_match "abbey road" [Item.mk "1" "Abbey Road", Item.mk "2" "Abbey Road (Remastered)"]
      = some (Item.mk "1" "Abbey Road") := by decide

/-- Unfolding equation for `finish_advance`. -/
theorem finish_advance_eq (st : State) (manual : Bool) :
    finish_advance st manual =
      ({ st with current := some (st.queue.getD st.index default_song)
                 paused := false
                 suppress_next_end := if manual then true else st.suppress_next_end },
       Except.ok (some (st.queue.getD st.index default_song))) := rfl

/-- With no `expected_id`, the stale-trigger test is vacuously false. -/
theorem stale_trigger_none (st : State) : stale_trigger st none = false := rfl

/-- A mismatching (or absent) current track makes the stale-trigger test
fire. -/
theorem stale_trigger_of_mismatch (st : State) (e : String)
    (hmismatch : ∀ c, st.current = some c → c.id ≠ e) :
    stale_trigger st (some e) = true := by
  unfold stale_trigger
  cases hc : st.current with
  | none => rfl
  | some c =>
      have hid : c.id ≠ e := hmismatch c hc
      simp [hid]

/-- Any actual advance performed by `play_next` with `manual = true`
leaves the suppression flag set. -/
theorem play_next_manual_suppress (rng : List Song → List Song) (st st' : State)
    (expected_id : Option String) (s : Song)
    (h : play_next rng st true expected_id = (st', Except.ok (some s))) :
    st'.suppress_next_end = true := by
  unfold play_next at h
  split_ifs at h with h1 h2 h3 h4 <;>
    first
    | simp at h
    | (rw [finish_advance_eq] at h
       simp only [Prod.mk.injEq] at h
       obtain ⟨hst, -⟩ := h
       subst hst
       rfl)

/-- Claim C3 (confirmed).  Stale-trigger guard: on a non-empty queue, an
advance whose `expected_id` differs from the current track's id (also
when there is no current track) returns success (`Except.ok none`) and
returns the state component entirely unchanged — queue, position,
current, paused and suppression flag included; in particular the
fallback tracker's forced advance for a superseded track id is a no-op. -/
theorem C3_stale_advance_noop (rng : List Song → List Song) (st : State) (e : String)
    (manual : Bool) (hne : st.queue ≠ [])
    (hmismatch : ∀ c, st.current = some c → c.id ≠ e) :
    play_next rng st manual (some e) = (st, Except.ok none) ∧
    fallback_advance rng st e = (st, Except.ok none) := by
  have hstale := stale_trigger_of_mismatch st e hmismatch
  constructor
  · unfold play_next
    simp [hne, hstale]
  · unfold fallback_advance play_next
    simp [hne, hstale]

/-- Witness for C3 at the concrete state `stAB` and expected id "z". -/
theorem C3_stale_advance_noop_witness :
    play_next (fun q => q) stAB true (some "z") = (stAB, Except.ok none) ∧
    fallback_advance (fun q => q) stAB "z" = (stAB, Except.ok none) :=
  C3_stale_advance_noop (fun q => q) stAB "z" true (by decide)
    (fun c hc => by
      simp only [stAB] at hc
      simp only [Option.some.injEq] at hc
      subst hc
      decide)

/-- Claim C4 (confirmed).  Queue-boundary failures are atomic: on a
non-empty queue with `repeat = false`, an advance at the last position
fails with `EndOfQueue` and returns the state component unchanged; and
on a non-empty queue a retreat at position 0 fails with `AtStart` and
returns the state component unchanged. -/
theorem C4_boundary_failures_atomic (rng : List Song → List Song) (st : State)
    (manual : Bool) (hne : st.queue ≠ []) :
    (st.repeat_flag = false → st.index + 1 = st.queue.length →
      play_next rng st manual none = (st, Except.error DaemonErr.endOfQueue)) ∧
    (st.index = 0 → play_previous st manual = (st, Except.error DaemonErr.atStart)) := by
  constructor
  · intro hrep hlast
    unfold play_next
    simp [hne, stale_trigger_none, hlast, hrep]
  · intro h0
    unfold play_previous
    simp [hne, h0]

/-- Witness for C4: advance at the last index of `stAB1`, retreat at
index 0 of `stAB`. -/
theorem C4_boundary_failures_atomic_witness :
    play_next (fun q => q) stAB1 true none = (stAB1, Except.error DaemonErr.endOfQueue) ∧
    play_previous stAB true = (stAB, Except.error DaemonErr.atStart) :=
  ⟨(C4_boundary_failures_atomic (fun q => q) stAB1 true (by decide)).1 rfl rfl,
   (C4_boundary_failures_atomic (fun q => q) stAB true (by decide)).2 rfl⟩

/-- Claim C7 (confirmed).  Load postcondition: a non-empty song list
replaces the whole queue, sets position 0, caches the first element as
current, clears the paused flag and clears the suppression flag (and
records the requested repeat/shuffle modes); an empty list fails with
`NoSongs` and returns the state component unchanged. -/
theorem C7_load_postcondition (st : State) (songs : List Song) (rep shuf : Bool) :
    (songs ≠ [] →
      set_queue_and_play st songs rep shuf =
        ({ st with queue := songs, index := 0
                   current := some (songs.getD 0 default_song), paused := false
                   repeat_flag := rep, shuffle := shuf, suppress_next_end := false },
         Except.ok ())) ∧
    (songs = [] →
      set_queue_and_play st songs rep shuf = (st, Except.error DaemonErr.noSongs)) := by
  constructor <;> intro h <;> simp [set_queue_and_play, h]

/-- Witness for C7: loading `[songA, songB]` into a fresh state. -/
theorem C7_load_postcondition_witness :
    set_queue_and_play (State.new 500) [songA, songB] true true =
      ({ State.new 500 with queue := [songA, songB], index := 0
                            current := some ([songA, songB].getD 0 default_song)
                            paused := false, repeat_flag := true, shuffle := true
                            suppress_next_end := false },
       Except.ok ()) :=
  (C7_load_postcondition (State.new 500) [songA, songB] true true).1 (by decide)

/-- Claim C10 (confirmed).  Every actual advance and every successful
retreat — manual or automatic — sets the paused flag to false, also when
playback was paused before the call. -/
theorem C10_skip_clears_paused (rng : List Song → List Song) (st : State)
    (manual : Bool) (expected_id : Option String) :
    (∀ st' s, play_next rng st manual expected_id = (st', Except.ok (some s)) →
      st'.paused = false) ∧
    (∀ st' s, play_previous st manual = (st', Except.ok s) → st'.paused = false) := by
  constructor
  · intro st' s h
    unfold play_next at h
    split_ifs at h with h1 h2 h3 h4 <;>
      first
      | simp at h
      | (rw [finish_advance_eq] at h
         simp only [Prod.mk.injEq] at h
         obtain ⟨hst, -⟩ := h
         subst hst
         rfl)
  · intro st' s h
    unfold play_previous at h
    split_ifs at h with h1 h2 <;>
      first
      | (simp only [Prod.mk.injEq] at h
         obtain ⟨hst, -⟩ := h
         subst hst
         rfl)
      | simp at h

/-- Witness for C10: a manual advance from the paused state `stABp` and
a manual retreat from the paused state `stAB1p` both leave `paused =
false`. -/
theorem C10_skip_clears_paused_witness :
    (play_next (fun q => q) stABp true none).1.paused = false ∧
    (play_previous stAB1p true).1.paused = false :=
  ⟨(C10_skip_clears_paused (fun q => q) stABp true none).1
      (play_next (fun q => q) stABp true none).1 songB (by decide),
   (C10_skip_clears_paused (fun q => q) stAB1p true none).2
      (play_previous stAB1p true).1 songA (by decide)⟩

/-- Claim C2 (confirmed).  Suppression de-duplicates advances: a
successful manual advance leaves the suppression flag set, and the next
track-ended notification the event consumer processes on that state is
discarded — the flag is read and cleared, no advance call is made, and
the rest of the playback state is unchanged. -/
theorem C2_suppression_dedup (rng : List Song → List Song) (st st' : State)
    (s : Song) (reason : Option String)
    (hadv : play_next rng st true none = (st', Except.ok (some s))) :
    st'.suppress_next_end = true ∧
    handle_end_file rng st' reason = ({ st' with suppress_next_end := false }, false) := by
  have hs := play_next_manual_suppress rng st st' none s hadv
  refine ⟨hs, ?_⟩
  unfold handle_end_file
  simp [hs]

/-- Witness for C2: manual advance from `stAB` produces `stAB_adv`, and
an `eof` notification arriving afterwards is discarded with only the
flag cleared. -/
theorem C2_suppression_dedup_witness :
    stAB_adv.suppress_next_end = true ∧
    handle_end_file (fun q => q) stAB_adv (some "eof") =
      ({ stAB_adv with suppress_next_end := false }, false) :=
  C2_suppression_dedup (fun q => q) stAB stAB_adv songB (some "eof") (by decide)

/-- Claim C1 (counterexample).  The claim asserts the fallback
end-tracker's forced advance runs with `manual = false` and hence does
not set the suppression flag.  At the concrete state `stAB` (current
track id "a", not paused) with the player position at the nominal end,
the wake check does force an advance — and the resulting state has the
suppression flag set (the source calls `play_next(.., true,
Some(song_id))` at src/daemon.rs line 598). -/
theorem C1_counterexample :
    fallback_wake_check stAB "a" 100 (some 100) = FallbackStep.advance ∧
    (fallback_advance (fun q => q) stAB "a").2 = Except.ok (some songB) ∧
    ¬ (fallback_advance (fun q => q) stAB "a").1.suppress_next_end = false := by
  refine ⟨?_, by decide, by decide⟩
  simp [fallback_wake_check, stAB, songA]

/-- Claim C1 as amended (proved).  When a fallback tracker wakes, finds
the current track id still matching, playback not paused and the
position within 0.25 s of the nominal end (`fallback_wake_check`
returning `advance`), the forced advance it performs is a *manual* one
(`play_next` with `manual = true` and `expected_id` the tracked id), so
any actual advance it causes leaves the one-shot suppression flag set. -/
theorem C1_fallback_advance_is_manual (rng : List Song → List Song)
    (st st' : State) (tracked_id : String) (duration_secs : Nat) (pos : Option ℚ)
    (s : Song)
    (_hwake : fallback_wake_check st tracked_id duration_secs pos = FallbackStep.advance)
    (hadv : fallback_advance rng st tracked_id = (st', Except.ok (some s))) :
    st'.suppress_next_end = true :=
  play_next_manual_suppress rng st st' (some tracked_id) s hadv

/-- Witness for the amended C1 at the concrete state `stAB`. -/
theorem C1_fallback_advance_is_manual_witness :
    stAB_adv.suppress_next_end = true :=
  C1_fallback_advance_is_manual (fun q => q) stAB stAB_adv "a" 100 (some 100) songB
    (by simp [fallback_wake_check, stAB, songA]) (by decide)

/-- Claim C6 (confirmed).  Repeat wrap-around: advancing a non-empty
queue with `repeat = true` at the last index wraps the position to 0 and
caches the element at index 0 of the (possibly reshuffled) queue as
current; with `shuffle = false` the queue order is unchanged, with
`shuffle = true` the post-wrap queue is a permutation of the same
elements (given that the modelled `rand` shuffle permutes its input). -/
theorem C6_repeat_wrap (rng : List Song → List Song)
    (hperm : ∀ q : List Song, (rng q).Perm q) (st : State) (manual : Bool)
    (hrep : st.repeat_flag = true) (hne : st.queue ≠ [])
    (hlast : st.index + 1 = st.queue.length) :
    (play_next rng st manual none).1.index = 0 ∧
    (play_next rng st manual none).1.current =
      some ((play_next rng st manual none).1.queue.getD 0 default_song) ∧
    (play_next rng st manual none).2 =
      Except.ok (some ((play_next rng st manual none).1.queue.getD 0 default_song)) ∧
    (st.shuffle = false → (play_next rng st manual none).1.queue = st.queue) ∧
    (st.shuffle = true → ((play_next rng st manual none).1.queue).Perm st.queue) := by
  have hcond : st.index + 1 ≥ st.queue.length := le_of_eq hlast.symm
  have hpn : play_next rng st manual none =
      finish_advance
        { st with queue := if st.shuffle then rng st.queue else st.queue, index := 0 }
        manual := by
    unfold play_next
    rw [if_neg hne]
    rw [if_neg (by simp [stale_trigger_none])]
    rw [if_pos hcond, if_pos hrep]
  rw [hpn, finish_advance_eq]
  refine ⟨rfl, rfl, rfl, ?_, ?_⟩
  · intro hsh
    simp [hsh]
  · intro hsh
    simp only [hsh, if_pos]
    exact hperm st.queue

/-- Witness for C6: wrap-around from the last index of `stAB1r`. -/
theorem C6_repeat_wrap_witness :
    (play_next (fun q => q) stAB1r true none).1.index = 0 ∧
    (play_next (fun q => q) stAB1r true none).1.current =
      some ((play_next (fun q => q) stAB1r true none).1.queue.getD 0 default_song) ∧
    (play_next (fun q => q) stAB1r true none).2 =
      Except.ok (some ((play_next (fun q => q) stAB1r true none).1.queue.getD 0 default_song)) ∧
    (stAB1r.shuffle = false → (play_next (fun q => q) stAB1r true none).1.queue = stAB1r.queue) ∧
    (stAB1r.shuffle = true → ((play_next (fun q => q) stAB1r true none).1.queue).Perm stAB1r.queue) :=
  C6_repeat_wrap (fun q => q) (fun q => List.Perm.refl q) stAB1r true rfl (by decide) rfl

/-- Claim C8 (counterexample).  The claim asserts the event consumer
advances when and only when the reason is one of {eof, stop, error}.  At
the concrete state `stAB` with a clear suppression flag, a notification
with *no* reason (modelled `none`, which `unwrap_or_default` turns into
the empty string) also triggers a non-manual advance, although `""` is
none of the three listed reasons. -/
theorem C8_counterexample :
    stAB.suppress_next_end = false ∧
    (handle_end_file (fun q => q) stAB none).2 = true ∧
    (none : Option String).getD "" ∉ (["eof", "stop", "error"] : List String) := by
  decide

/-- Claim C8 as amended (proved).  With the suppression flag clear, the
event consumer performs a non-manual advance when and only when the
notification's reason is missing/empty or one of {eof, stop, error}. -/
theorem C8_advance_reason_set (rng : List Song → List Song) (st : State)
    (reason : Option String) (hsup : st.suppress_next_end = false) :
    (handle_end_file rng st reason).2 = true ↔
      (reason.getD "" = "" ∨ reason.getD "" ∈ (["eof", "stop", "error"] : List String)) := by
  unfold handle_end_file
  simp only [hsup, Bool.false_eq_true, if_false]
  split_ifs with hc
  · simp only [true_iff]
    simpa using hc
  · simp only [Bool.false_eq_true, false_iff]
    simpa using hc

/-- Witness for the amended C8: an `eof` notification on `stAB` does
advance. -/
theorem C8_advance_reason_set_witness :
    (handle_end_file (fun q => q) stAB (some "eof")).2 = true ↔
      ((some "eof" : Option String).getD "" = "" ∨
        (some "eof" : Option String).getD "" ∈ (["eof", "stop", "error"] : List String)) :=
  C8_advance_reason_set (fun q => q) stAB (some "eof") rfl

/-- `StateInv` only depends on the queue, index and current fields. -/
theorem stateInv_of_fields (st st' : State) (hq : st'.queue = st.queue)
    (hi : st'.index = st.index) (hc : st'.current = st.current)
    (h : StateInv st) : StateInv st' := by
  unfold StateInv at *
  rw [hq, hi, hc]
  exact h

/-- `StateInv` holds for the state `finish_advance` produces whenever
its input state has a valid index. -/
theorem stateInv_finish_advance (st : State) (manual : Bool)
    (hne : st.queue ≠ []) (hidx : st.index < st.queue.length) :
    StateInv (finish_advance st manual).1 := by
  rw [finish_advance_eq]
  exact ⟨fun h => absurd h hne, fun _ => ⟨hidx, rfl⟩⟩

/-- `play_next` preserves `StateInv` whenever the modelled shuffle
preserves the queue length (as the in-place `rand` shuffle does). -/
theorem play_next_stateInv (rng : List Song → List Song)
    (hlen : ∀ q : List Song, (rng q).length = q.length) (st : State)
    (hinv : StateInv st) (manual : Bool) (expected_id : Option String) :
    StateInv (play_next rng st manual expected_id).1 := by
  rcases em (st.queue = []) with h1 | h1
  · simp only [play_next, if_pos h1]
    exact hinv
  rcases em (stale_trigger st expected_id = true) with h2 | h2
  · simp only [play_next, if_neg h1, if_pos h2]
    exact hinv
  rcases em (st.index + 1 ≥ st.queue.length) with h3 | h3
  · rcases em (st.repeat_flag = true) with h4 | h4
    · simp only [play_next, if_neg h1, if_neg h2, if_pos h3, if_pos h4]
      apply stateInv_finish_advance
      · show ¬(if st.shuffle = true then rng st.queue else st.queue) = []
        rcases em (st.shuffle = true) with hsh | hsh
        · simp only [if_pos hsh]
          intro hq
          refine h1 (List.length_eq_zero.mp ?_)
          rw [← hlen st.queue, hq]
          rfl
        · simp only [if_neg hsh]
          exact h1
      · show 0 < (if st.shuffle = true then rng st.queue else st.queue).length
        rcases em (st.shuffle = true) with hsh | hsh
        · simp only [if_pos hsh, hlen st.queue]
          exact List.length_pos.mpr h1
        · simp only [if_neg hsh]
          exact List.length_pos.mpr h1
    · simp only [play_next, if_neg h1, if_neg h2, if_pos h3, if_neg h4]
      exact hinv
  · simp only [play_next, if_neg h1, if_neg h2, if_neg h3]
    apply stateInv_finish_advance
    · exact h1
    · exact lt_of_not_ge h3

/-- Claim C5 (confirmed).  The state invariant — `0 ≤ position <
len(queue)` and `current = queue[position]` for a non-empty queue, no
current track for an empty one — holds initially and is preserved by
every mutation: load (`set_queue_and_play`), advance (`play_next`, any
trigger), retreat (`play_previous`), the pause/play flag updates, and a
whole event-consumer iteration. -/
theorem C5_state_invariant (rng : List Song → List Song)
    (hlen : ∀ q : List Song, (rng q).length = q.length) (st : State)
    (hinv : StateInv st) :
    (∀ g, StateInv (State.new g)) ∧
    (∀ songs rep shuf, StateInv (set_queue_and_play st songs rep shuf).1) ∧
    (∀ manual expected_id, StateInv (play_next rng st manual expected_id).1) ∧
    (∀ manual, StateInv (play_previous st manual).1) ∧
    (∀ b, StateInv (set_paused st b)) ∧
    (∀ reason, StateInv (handle_end_file rng st reason).1) := by
  refine ⟨?_, ?_, ?_, ?_, ?_, ?_⟩
  · intro g
    exact ⟨fun _ => rfl, fun h => absurd rfl h⟩
  · intro songs rep shuf
    unfold set_queue_and_play
    split_ifs with h
    · exact hinv
    · refine ⟨fun hq => absurd hq h, fun _ => ⟨List.length_pos.mpr h, rfl⟩⟩
  · exact play_next_stateInv rng hlen st hinv
  · intro manual
    unfold play_previous
    split_ifs with h1 h2 <;>
      first
      | exact hinv
      | (have hidx : st.index < st.queue.length := ((hinv.2) h1).1
         exact ⟨fun hq => absurd hq h1,
                fun _ => ⟨lt_of_le_of_lt (Nat.sub_le st.index 1) hidx, rfl⟩⟩)
  · intro b
    exact stateInv_of_fields st (set_paused st b) rfl rfl rfl hinv
  · intro reason
    unfold handle_end_file
    dsimp only
    rcases em (st.suppress_next_end = true) with h1 | h1
    · simp only [if_pos h1]
      exact stateInv_of_fields st _ rfl rfl rfl hinv
    · simp only [if_neg h1]
      rcases em (reason.getD "" = "" ∨ reason.getD "" = "eof" ∨ reason.getD "" = "stop" ∨
          reason.getD "" = "error") with h2 | h2
      · simp only [if_pos h2]
        exact play_next_stateInv rng hlen st hinv false none
      · simp only [if_neg h2]
        exact hinv

/-- Witness for C5 at the identity shuffle and the concrete state
`stAB`. -/
theorem C5_state_invariant_witness :
    StateInv (play_next (fun q => q) stAB true none).1 :=
  (C5_state_invariant (fun q => q) (fun _ => rfl) stAB
    ⟨fun h => by simp [stAB] at h, fun _ => ⟨by decide, by decide⟩⟩).2.2.1 true none

/-- Default element used to index into candidate lists. -/
def default_item : Item :=
  { id := "", name := "" }

/-- Unfolding equation for `best_match_loop` on a cons cell. -/
theorem best_match_loop_cons (nq : String) (item : Item) (rest : List Item)
    (best : Option Item) (bs : Nat) :
    best_match_loop nq (item :: rest) best bs =
      if match_score nq (normalize_name item.name) > bs then
        best_match_loop nq rest (some item) (match_score nq (normalize_name item.name))
      else
        best_match_loop nq rest best bs := rfl

/-- Full characterisation of the `best_match` scan loop: the final score
dominates the threshold and every candidate's score, and the final
candidate is either the untouched incoming `best` (when nothing beat the
threshold) or the first list element attaining the final score. -/
theorem best_match_loop_spec (nq : String) (items : List Item) :
    ∀ (best : Option Item) (bs : Nat),
      bs ≤ (best_match_loop nq items best bs).2 ∧
      (∀ it ∈ items,
        match_score nq (normalize_name it.name) ≤ (best_match_loop nq items best bs).2) ∧
      (((best_match_loop nq items best bs).1 = best ∧
        (best_match_loop nq items best bs).2 = bs ∧
        ∀ it ∈ items, match_score nq (normalize_name it.name) ≤ bs) ∨
       (∃ i, i < items.length ∧
         (best_match_loop nq items best bs).1 = some (items.getD i default_item) ∧
         (best_match_loop nq items best bs).2 =
           match_score nq (normalize_name (items.getD i default_item).name) ∧
         bs < (best_match_loop nq items best bs).2 ∧
         ∀ j, j < i →
           match_score nq (normalize_name (items.getD j default_item).name) <
             (best_match_loop nq items best bs).2)) := by
  induction items with
  | nil =>
      intro best bs
      refine ⟨le_refl bs, fun it hit => absurd hit (List.not_mem_nil it),
        Or.inl ⟨rfl, rfl, fun it hit => absurd hit (List.not_mem_nil it)⟩⟩
  | cons item rest ih =>
      intro best bs
      rw [best_match_loop_cons]
      by_cases hgt : match_score nq (normalize_name item.name) > bs
      · rw [if_pos hgt]
        obtain ⟨ih1, ih2, ih3⟩ := ih (some item) (match_score nq (normalize_name item.name))
        refine ⟨le_of_lt (lt_of_lt_of_le hgt ih1), ?_, ?_⟩
        · intro it hit
          rcases List.mem_cons.mp hit with rfl | hmem
          · exact ih1
          · exact ih2 it hmem
        · rcases ih3 with ⟨e1, e2, e3⟩ | ⟨i, hi, e1, e2, e3, e4⟩
          · refine Or.inr ⟨0, Nat.succ_pos rest.length, e1, e2, ?_, ?_⟩
            · rw [e2]
              exact hgt
            · intro j hj
              exact absurd hj (Nat.not_lt_zero j)
          · refine Or.inr ⟨i + 1, Nat.succ_lt_succ hi, e1, e2, lt_trans hgt e3, ?_⟩
            intro j hj
            cases j with
            | zero => exact e3
            | succ k => exact e4 k (Nat.lt_of_succ_lt_succ hj)
      · rw [if_neg hgt]
        have hle : match_score nq (normalize_name item.name) ≤ bs := not_lt.mp hgt
        obtain ⟨ih1, ih2, ih3⟩ := ih best bs
        refine ⟨ih1, ?_, ?_⟩
        · intro it hit
          rcases List.mem_cons.mp hit with rfl | hmem
          · exact le_trans hle ih1
          · exact ih2 it hmem
        · rcases ih3 with ⟨e1, e2, e3⟩ | ⟨i, hi, e1, e2, e3, e4⟩
          · refine Or.inl ⟨e1, e2, ?_⟩
            intro it hit
            rcases List.mem_cons.mp hit with rfl | hmem
            · exact hle
            · exact e3 it hmem
          · refine Or.inr ⟨i + 1, Nat.succ_lt_succ hi, e1, e2, e3, ?_⟩
            intro j hj
            cases j with
            | zero => exact lt_of_le_of_lt hle e3
            | succ k => exact e4 k (Nat.lt_of_succ_lt_succ hj)

/-- Claim C9 as amended (proved).  Fuzzy name matching: with a query
whose normalized form (whitespace stripped, lowercased) is non-empty,
`best_match` returns not-found exactly when every candidate scores zero
against the normalized query, and otherwise returns a candidate with
positive score that scores at least as high as every candidate and is
the first occurrence of that maximal score in the candidates' given
order. -/
theorem C9_best_match_spec (query : String) (items : List Item)
    (hq : normalize_name query ≠ "") :
    (best_match query items = none ↔
      ∀ it ∈ items, match_score (normalize_name query) (normalize_name it.name) = 0) ∧
    (∀ it, best_match query items = some it →
      ∃ i, i < items.length ∧ items.getD i default_item = it ∧
        0 < match_score (normalize_name query) (normalize_name it.name) ∧
        (∀ x ∈ items, match_score (normalize_name query) (normalize_name x.name) ≤
          match_score (normalize_name query) (normalize_name it.name)) ∧
        (∀ j, j < i →
          match_score (normalize_name query) (normalize_name (items.getD j default_item).name) <
            match_score (normalize_name query) (normalize_name it.name))) := by
  have hbm : best_match query items =
      (best_match_loop (normalize_name query) items none 0).1 := by
    unfold best_match
    dsimp only
    rw [if_neg hq]
  obtain ⟨l1, l2, l3⟩ := best_match_loop_spec (normalize_name query) items none 0
  constructor
  · constructor
    · intro hnone it hit
      rcases l3 with ⟨e1, e2, e3⟩ | ⟨i, hi, e1, e2, e3, e4⟩
      · exact Nat.le_zero.mp (e3 it hit)
      · rw [hbm] at hnone
        rw [hnone] at e1
        exact Option.noConfusion e1
    · intro hall
      rw [hbm]
      rcases l3 with ⟨e1, e2, e3⟩ | ⟨i, hi, e1, e2, e3, e4⟩
      · exact e1
      · exfalso
        have hmem : items.getD i default_item ∈ items := by
          rw [List.getD_eq_getElem items default_item hi]
          exact List.getElem_mem hi
        have hzero := hall (items.getD i default_item) hmem
        rw [← e2] at hzero
        omega
  · intro it hit
    rw [hbm] at hit
    rcases l3 with ⟨e1, e2, e3⟩ | ⟨i, hi, e1, e2, e3, e4⟩
    · rw [e1] at hit
      exact Option.noConfusion hit
    · rw [e1] at hit
      have hit' : items.getD i default_item = it := Option.some.inj hit
      refine ⟨i, hi, hit', ?_, ?_, ?_⟩
      · rw [← hit', ← e2]
        exact e3
      · intro x hx
        rw [← hit', ← e2]
        exact l2 x hx
      · intro j hj
        rw [← hit', ← e2]
        exact e4 j hj

/-- Claim C9 (counterexample).  The claim, quantified over *every* query
and candidate list, predicts that a candidate scoring above zero wins.
For the query `""` (normalized form empty) against the single candidate
named `""`, that candidate scores 3 (exact match after normalization),
yet `best_match` returns not-found: the source returns `None` for an
empty normalized query before scanning. -/
theorem C9_counterexample :
    best_match "" [Item.mk "x" ""] = none ∧
    0 < match_score (normalize_name "") (normalize_name (Item.mk "x" "").name) := by
  decide

/-- Witness for the amended C9 on the spec's own scenario: query "abbey
road" against `["Abbey Road", "Abbey Road (Remastered)"]`. -/
theorem C9_best_match_spec_witness :
    best_match "abbey road" [Item.mk "1" "Abbey Road", Item.mk "2" "Abbey Road (Remastered)"]
        = none ↔
      ∀ it ∈ [Item.mk "1" "Abbey Road", Item.mk "2" "Abbey Road (Remastered)"],
        match_score (normalize_name "abbey road") (normalize_name it.name) = 0 :=
  (C9_best_match_spec "abbey road"
    [Item.mk "1" "Abbey Road", Item.mk "2" "Abbey Road (Remastered)"] (by decide)).1
